import Mathlib

/-!
Shallow embedding of `src/component.py` of the `gymbeam.ex-brevo-blocklist`
repository: a paged extractor that probes a total record count from the Brevo
HTTP API, plans offsets, fetches pages with retries, normalizes contacts and
appends them to a CSV sink.  HTTP responses are abstracted as functions from
attempt index (and offset) to a result, so each theorem quantifies over all
possible behaviours of the remote API.
-/

namespace Brevo

/-! ## JSON-like values and Python dictionaries

Contacts are JSON objects decoded into Python dicts.  A dict is modelled as an
association list with the usual Python semantics: lookup finds the (unique)
key, assignment replaces in place or appends, deletion removes the key.
Python's `None` (JSON `null`) is `JVal.null`. -/

inductive JVal where
  | str (s : String)
  | num (n : Int)
  | obj (fields : List (String × JVal))
  | null

abbrev Contact := List (String × JVal)

/-- `d.get(key)` without default: `some v` when the key is present, else `none`. -/
def jlookup : Contact → String → Option JVal
  | [], _ => none
  | (k, v) :: rest, key => if k = key then some v else jlookup rest key

/-- `d[key] = v`: replace the value in place when the key exists, else append.
(Python dicts keep keys unique; the association lists modelling them do too.) -/
def pySet : Contact → String → JVal → Contact
  | [], k, v => [(k, v)]
  | (k', v') :: rest, k, v =>
      if k' = k then (k', v) :: rest else (k', v') :: pySet rest k v

/-- `del d[key]`.  On the association lists that model Python dicts the key is
unique, so removing every occurrence coincides with dict deletion. -/
def pyDel : Contact → String → Contact
  | [], _ => []
  | (k', v') :: rest, k => if k' = k then pyDel rest k else (k', v') :: pyDel rest k

/-- `d.get(key)` where a missing key yields Python `None` (modelled `JVal.null`),
as in `contact['reason'].get('message')`. -/
def pyGet (fields : List (String × JVal)) (k : String) : JVal :=
  (jlookup fields k).getD JVal.null

def isNullJ : JVal → Bool
  | .null => true
  | _ => false

/-- `contact.get('email') is not None` (line 106): the key is present and its
value is not JSON null (which decodes to Python `None`). -/
def emailPresent (c : Contact) : Bool :=
  match jlookup c "email" with
  | some v => !(isNullJ v)
  | none => false

/-! ## Endpoints, columns and request parameters (lines 22-23, 68-71, 93-96) -/

def BREVO_TRANSACTIONAL_ENDPOINT : String := "https://api.brevo.com/v3/smtp/blockedContacts"

def BREVO_MARKETING_ENDPOINT : String := "https://api.brevo.com/v3/contacts"

def transactionalColumns : List String :=
  ["email", "reason_message", "reason_code", "blockedAt", "senderEmail"]

def marketingColumns : List String :=
  ["id", "email", "emailBlacklisted", "smsBlacklisted", "createdAt", "modifiedAt"]

structure RequestParams where
  limit : Nat
  offset : Nat
  sort : Option String
  segmentId : Option Nat

/-- Query parameters of one page fetch (lines 94-96).  `if segment_id:` is
Python truthiness: `None` and `0` both leave `segmentId` out. -/
def buildRequestParams (batch_size offset : Nat) (segment_id : Option Nat) : RequestParams :=
  match segment_id with
  | some s => if s ≠ 0 then ⟨batch_size, offset, some "desc", some s⟩
              else ⟨batch_size, offset, some "desc", none⟩
  | none => ⟨batch_size, offset, some "desc", none⟩

/-- Query parameters of the count probe (lines 69-71): `limit=1, offset=0`,
no `sort`, `segmentId` only when truthy. -/
def probeParams (segment_id : Option Nat) : RequestParams :=
  match segment_id with
  | some s => if s ≠ 0 then ⟨1, 0, none, some s⟩ else ⟨1, 0, none, none⟩
  | none => ⟨1, 0, none, none⟩

/-! ## fetch_contacts_batch (lines 93-115)

One HTTP attempt either returns the decoded `contacts` array or raises
(`raise_for_status`, network error, timeout...).  The loop retries every
exception uniformly, sleeping `2 ** attempt` seconds between attempts, and
returns `[]` once all `max_attempts` attempts failed. -/

inductive AttemptResult where
  | ok (contacts : List Contact)
  | err (status : Option Nat)

def AttemptResult.isErr : AttemptResult → Bool
  | .ok _ => false
  | .err _ => true

structure FetchTrace where
  result : List Contact
  attempts : Nat
  sleeps : List Nat

/-- The `for attempt in range(max_attempts)` loop of `fetch_contacts_batch`,
over the list of remaining attempt indices.  On success the page is filtered
to contacts with a usable email (line 106); on failure at a non-final attempt
the worker sleeps `2 ** attempt` (line 112) and retries; on failure at the
final attempt it returns `[]` (line 115). -/
def runAttempts (resp : Nat → AttemptResult) : List Nat → FetchTrace
  | [] => ⟨[], 0, []⟩
  | [a] =>
      match resp a with
      | .ok contacts => ⟨contacts.filter emailPresent, 1, []⟩
      | .err _ => ⟨[], 1, []⟩
  | a :: b :: rest =>
      match resp a with
      | .ok contacts => ⟨contacts.filter emailPresent, 1, []⟩
      | .err _ =>
          ⟨(runAttempts resp (b :: rest)).result,
           (runAttempts resp (b :: rest)).attempts + 1,
           2 ^ a :: (runAttempts resp (b :: rest)).sleeps⟩

/-- `max_attempts = 10` (line 98). -/
def max_attempts : Nat := 10

def fetchContactsBatch (resp : Nat → AttemptResult) : FetchTrace :=
  runAttempts resp (List.range max_attempts)

/-! ## get_total_records (lines 68-91)

`attempts = 3; while attempts > 0: ...` — a successful attempt returns
`data.get('count', 0)`; a `RequestException` decrements `attempts`, sleeps
`2 ** (3 - attempts)` when attempts remain, and raises `UserException` once
they are exhausted. -/

structure ProbeTrace where
  result : Except Unit Nat
  attempts : Nat
  sleeps : List Nat

/-- One probe attempt: `.ok v` is a 2xx response whose decoded body has
`count` field `v` (`none` when the field is absent); `.error` is a
`RequestException`. -/
def probeLoop (resp : Nat → Except Unit (Option Nat)) : Nat → Nat → ProbeTrace
  | 0, _ => ⟨.ok 0, 0, []⟩
  | attempts + 1, idx =>
      match resp idx with
      | .ok v => ⟨.ok (v.getD 0), 1, []⟩
      | .error _ =>
          if attempts > 0 then
            ⟨(probeLoop resp attempts (idx + 1)).result,
             (probeLoop resp attempts (idx + 1)).attempts + 1,
             2 ^ (3 - attempts) :: (probeLoop resp attempts (idx + 1)).sleeps⟩
          else ⟨.error (), 1, []⟩

def getTotalRecords (resp : Nat → Except Unit (Option Nat)) : ProbeTrace :=
  probeLoop resp 3 0

/-! ## Page normalization (worker body, lines 128-144)

`pd.DataFrame(contacts, columns=cols).to_csv(..., header=False)` emits one CSV
row per contact: for each declared column the contact's value, with a missing
key or a Python `None` rendered as an empty cell (RFC-4180 quoting of cells is
not modelled; no claim depends on it). -/

def cellStr : Option JVal → String
  | none => ""
  | some .null => ""
  | some (.str s) => s
  | some (.num n) => toString n
  | some (.obj _) => "<object>"

/-- One DataFrame row of `contact` under the declared column vector. -/
def projectRow (cols : List String) (c : Contact) : List String :=
  cols.map (fun k => cellStr (jlookup c k))

/-- Lines 132-136: `if 'reason' in contact:` lift `reason.message` and
`reason.code`, then `del contact['reason']`.  When `reason` is present but not
a dict, `contact['reason'].get` raises `AttributeError` (modelled `none`, which
crashes the worker task). -/
def flattenReason (c : Contact) : Option Contact :=
  match jlookup c "reason" with
  | none => some c
  | some (.obj r) =>
      some (pyDel (pySet (pySet c "reason_message" (pyGet r "message"))
                     "reason_code" (pyGet r "code")) "reason")
  | some _ => none

/-- The `for contact in contacts:` loop of lines 132-136, flattening each
contact in order; the first `AttributeError` aborts the worker (`none`). -/
def flattenAll : List Contact → Option (List Contact)
  | [] => some []
  | c :: rest =>
      match flattenReason c, flattenAll rest with
      | some c', some cs' => some (c' :: cs')
      | _, _ => none

/-- Does some contact of the page carry this key?  (`pd.DataFrame(contacts)`
infers its columns from the union of keys; `df[cols]` raises `KeyError` when a
requested column was not inferred.) -/
def pageHasCol (cs : List Contact) (k : String) : Bool :=
  cs.any (fun c => (jlookup c k).isSome)

/-- `df = pd.DataFrame(contacts)` followed by `if columns: df = df[columns]`
(lines 139-141): without a requested column vector the DataFrame keeps the
columns inferred from the union of keys; with one, `df[columns]` selects the
requested columns and raises `KeyError` (`none`) when one of them was not
inferred from any contact of the page. -/
def selectCols (columns : Option (List String)) (contacts : List Contact) :
    Option (List (List String)) :=
  match columns with
  | some cols =>
      if cols.all (fun k => pageHasCol contacts k) then
        some (contacts.map (projectRow cols))
      else none
  | none => some (contacts.map (projectRow (contacts.flatMap (fun c => c.map Prod.fst)).eraseDups))

/-- The rows a worker writes for a non-empty page (lines 130-141): the
transactional endpoint flattens `reason` and projects to the fixed
transactional columns; any other endpoint builds a plain DataFrame and, when a
column vector was passed, selects it.  `none` models an uncaught exception in
the worker task. -/
def normalizePage (endpoint : String) (columns : Option (List String))
    (contacts : List Contact) : Option (List (List String)) :=
  if endpoint = BREVO_TRANSACTIONAL_ENDPOINT then
    match flattenAll contacts with
    | some cs => some (cs.map (projectRow transactionalColumns))
    | none => none
  else selectCols columns contacts

/-! ## Offset plan (lines 118-120)

`range(0, total_records, batch_size)` — Python's `range` with a positive step,
embedded with explicit fuel (`stop - start` bounds the iteration count when
the step is at least 1). -/

def pyRangeGo : Nat → Nat → Nat → Nat → List Nat
  | 0, _, _, _ => []
  | fuel + 1, start, stop, step =>
      if start < stop then start :: pyRangeGo fuel (start + step) stop step else []

def pyRange (start stop step : Nat) : List Nat :=
  pyRangeGo (stop - start) start stop step

/-! ## Worker pool and feed runs (lines 117-183)

All offsets are enqueued up front; each worker loops `while not offsets.empty()`
taking the next offset, fetching its page and, when the page is non-empty,
normalizing and appending it to the sink.  The pool is embedded as one worker
draining the queue: the code has no termination signal and no inter-worker
communication, so every offset is processed exactly once in every schedule.
An uncaught exception in the worker ends its loop (and the run, via
`asyncio.gather`). -/

inductive FeedEvent where
  | sinkCreate (file : String)
  | headerWrite (line : String)
  | fetched (offset : Nat)
  | pageWrite (offset : Nat) (rows : List (List String))
  | crashed (offset : Nat)
  | stateWrite

def FeedEvent.isHeaderWrite : FeedEvent → Bool
  | .headerWrite _ => true
  | _ => false

def FeedEvent.isCrashed : FeedEvent → Bool
  | .crashed _ => true
  | _ => false

def workerRun (endpoint : String) (columns : Option (List String))
    (resp : Nat → Nat → AttemptResult) : List Nat → List FeedEvent
  | [] => []
  | o :: rest =>
      if ((fetchContactsBatch (resp o)).result).isEmpty then
        FeedEvent.fetched o :: workerRun endpoint columns resp rest
      else
        match normalizePage endpoint columns (fetchContactsBatch (resp o)).result with
        | some rows => FeedEvent.fetched o :: FeedEvent.pageWrite o rows ::
            workerRun endpoint columns resp rest
        | none => [FeedEvent.fetched o, FeedEvent.crashed o]

/-- The offsets a run actually fetched, in dispatch order. -/
def fetchedOffsets (evs : List FeedEvent) : List Nat :=
  evs.filterMap (fun e => match e with | .fetched o => some o | _ => none)

/-- The page writes a run performed, in sink order. -/
def pageWrites (evs : List FeedEvent) : List (Nat × List (List String)) :=
  evs.filterMap (fun e => match e with | .pageWrite o rows => some (o, rows) | _ => none)

/-- The lines of the sink file, in write order: the header line, then one
comma-joined line per written row. -/
def fileLines (evs : List FeedEvent) : List String :=
  evs.flatMap (fun e =>
    match e with
    | .headerWrite s => [s]
    | .pageWrite _ rows => rows.map (fun row => String.intercalate "," row)
    | _ => [])

def transactionalHeaderLine : String := String.intercalate "," transactionalColumns

def marketingHeaderLine : String := String.intercalate "," marketingColumns

/-- The event trace of one feed after a successful probe: the sink file is
created and the header written (lines 164-166 resp. 178-180), then the pool
runs; the run state is written (line 54 resp. 61) only when no worker crashed. -/
def feedTrace (file headerLine : String) (evs : List FeedEvent) : List FeedEvent :=
  if evs.any FeedEvent.isCrashed then
    FeedEvent.sinkCreate file :: FeedEvent.headerWrite headerLine :: evs
  else
    (FeedEvent.sinkCreate file :: FeedEvent.headerWrite headerLine :: evs) ++
      [FeedEvent.stateWrite]

/-- The process exit code after a successful probe (lines 186-195): 2 when an
unexpected exception escaped a worker, else 0. -/
def feedExit (evs : List FeedEvent) : Nat :=
  if evs.any FeedEvent.isCrashed then 2 else 0

/-- `get_blocked_contacts` (lines 158-169) followed by the `write_state_file`
of `run` (line 54), with the process exit code of `__main__` (lines 186-195):
a `UserException` from the probe aborts before the sink file is created and
exits 1; a crashed worker task aborts after the sink was written and exits 2;
otherwise the run state is written and the process exits 0. -/
def runTransactionalFeed (probeResp : Nat → Except Unit (Option Nat))
    (pageResp : Nat → Nat → AttemptResult) : List FeedEvent × Nat :=
  match (getTotalRecords probeResp).result with
  | .error _ => ([], 1)
  | .ok total =>
      (feedTrace "transactional_contacts.csv" transactionalHeaderLine
         (workerRun BREVO_TRANSACTIONAL_ENDPOINT none pageResp (pyRange 0 total 100)),
       feedExit (workerRun BREVO_TRANSACTIONAL_ENDPOINT none pageResp (pyRange 0 total 100)))

/-- `get_marketing_contacts` (lines 171-183): `segment_id = 8`,
`batch_size = 1000`, explicit marketing column vector. -/
def runMarketingFeed (probeResp : Nat → Except Unit (Option Nat))
    (pageResp : Nat → Nat → AttemptResult) : List FeedEvent × Nat :=
  match (getTotalRecords probeResp).result with
  | .error _ => ([], 1)
  | .ok total =>
      (feedTrace "marketing_contacts.csv" marketingHeaderLine
         (workerRun BREVO_MARKETING_ENDPOINT (some marketingColumns) pageResp (pyRange 0 total 1000)),
       feedExit (workerRun BREVO_MARKETING_ENDPOINT (some marketingColumns) pageResp (pyRange 0 total 1000)))

/-! ## Configuration (lines 15-20, 39-64, 158-183) -/

structure ConfigParams where
  api_token : Option String
  start_date : Option String
  end_date : Option String
  transactional : Bool
  marketing : Bool

structure FeedSetup where
  endpoint : String
  batchSize : Nat
  segmentId : Option Nat
  columns : Option (List String)

/-- The transactional feed's fixed setup (lines 158-168): the function body
reads nothing from the host configuration but the API token. -/
def transactionalFeedSetup (_cfg : ConfigParams) : FeedSetup :=
  ⟨BREVO_TRANSACTIONAL_ENDPOINT, 100, none, none⟩

/-- The marketing feed's fixed setup (lines 171-182): `segment_id = 8` and
`batch_size = 1000` are literals, not configuration. -/
def marketingFeedSetup (_cfg : ConfigParams) : FeedSetup :=
  ⟨BREVO_MARKETING_ENDPOINT, 1000, some 8, some marketingColumns⟩

/-! ## Dictionary lemmas -/

theorem jlookup_pySet_self (c : Contact) (k : String) (v : JVal) :
    jlookup (pySet c k v) k = some v := by
  induction c with
  | nil => simp [pySet, jlookup]
  | cons p rest ih =>
      obtain ⟨k₀, v₀⟩ := p
      by_cases h : k₀ = k
      · simp [pySet, h, jlookup]
      · simp [pySet, h, jlookup, ih]

theorem jlookup_pySet_of_ne (c : Contact) (k k' : String) (v : JVal) (hne : k' ≠ k) :
    jlookup (pySet c k v) k' = jlookup c k' := by
  have hne' : ¬(k = k') := fun h => hne h.symm
  induction c with
  | nil => simp [pySet, jlookup, hne']
  | cons p rest ih =>
      obtain ⟨k₀, v₀⟩ := p
      by_cases h : k₀ = k
      · have h' : ¬(k₀ = k') := fun heq => hne (heq ▸ h)
        simp [pySet, h, jlookup, h', hne']
      · simp only [pySet, if_neg h, jlookup]
        by_cases h' : k₀ = k'
        · simp [h']
        · simp [h', ih]

theorem jlookup_pyDel_self (c : Contact) (k : String) :
    jlookup (pyDel c k) k = none := by
  induction c with
  | nil => simp [pyDel, jlookup]
  | cons p rest ih =>
      obtain ⟨k₀, v₀⟩ := p
      by_cases h : k₀ = k
      · simpa [pyDel, h] using ih
      · simp [pyDel, h, jlookup, ih]

theorem jlookup_pyDel_of_ne (c : Contact) (k k' : String) (hne : k' ≠ k) :
    jlookup (pyDel c k) k' = jlookup c k' := by
  induction c with
  | nil => simp [pyDel]
  | cons p rest ih =>
      obtain ⟨k₀, v₀⟩ := p
      by_cases h : k₀ = k
      · have h' : ¬(k₀ = k') := fun heq => hne (heq ▸ h)
        have hkk' : ¬(k = k') := fun heq => hne heq.symm
        simp [pyDel, h, jlookup, h', hkk', ih]
      · by_cases h' : k₀ = k'
        · simp [pyDel, h, jlookup, h', hne]
        · simp [pyDel, h, jlookup, h', ih]

/-! ## Retry-loop lemmas -/

theorem runAttempts_attempts_le (resp : Nat → AttemptResult) (l : List Nat) :
    (runAttempts resp l).attempts ≤ l.length := by
  induction l with
  | nil => simp [runAttempts]
  | cons a rest ih =>
      cases rest with
      | nil =>
          cases h : resp a with
          | ok cs => simp [runAttempts, h]
          | err e => simp [runAttempts, h]
      | cons b rest' =>
          cases h : resp a with
          | ok cs => simp [runAttempts, h]
          | err e =>
              simp only [runAttempts, h, List.length_cons]
              simp only [List.length_cons] at ih
              omega

theorem runAttempts_attempts_err_cons (resp : Nat → AttemptResult) (a b : Nat)
    (rest : List Nat) (e : Option Nat) (he : resp a = .err e) :
    (runAttempts resp (a :: b :: rest)).attempts =
      (runAttempts resp (b :: rest)).attempts + 1 := by
  simp [runAttempts, he]

theorem runAttempts_attempts_pos (resp : Nat → AttemptResult) (a : Nat) (l : List Nat) :
    1 ≤ (runAttempts resp (a :: l)).attempts := by
  cases l with
  | nil =>
      cases h : resp a with
      | ok cs => simp [runAttempts, h]
      | err e => simp [runAttempts, h]
  | cons b rest' =>
      cases h : resp a with
      | ok cs => simp [runAttempts, h]
      | err e => simp [runAttempts, h]

theorem runAttempts_all_err (resp : Nat → AttemptResult) (l : List Nat)
    (h : ∀ a ∈ l, (resp a).isErr = true) :
    (runAttempts resp l).result = [] ∧ (runAttempts resp l).attempts = l.length := by
  induction l with
  | nil => simp [runAttempts]
  | cons a rest ih =>
      have ha : (resp a).isErr = true := h a (List.mem_cons_self a rest)
      cases he : resp a with
      | ok cs => rw [he] at ha; simp [AttemptResult.isErr] at ha
      | err e =>
          cases rest with
          | nil => simp [runAttempts, he]
          | cons b rest' =>
              have hrest := ih (fun x hx => h x (List.mem_cons_of_mem a hx))
              simp only [runAttempts, he, List.length_cons]
              simp only [List.length_cons] at hrest
              exact ⟨hrest.1, by omega⟩

/-- A run whose first `k` attempts fail and whose attempt `k` succeeds: the
retry loop returns the filtered page of attempt `k` after `k - s + 1` attempts,
having slept `2 ^ s, ..., 2 ^ (k - 1)`. -/
theorem runAttempts_first_ok (resp : Nat → AttemptResult) (cs : List Contact) :
    ∀ (n s k : Nat), s ≤ k → k < s + n →
    (∀ j, s ≤ j → j < k → (resp j).isErr = true) → resp k = .ok cs →
    runAttempts resp (List.range' s n) =
      ⟨cs.filter emailPresent, k - s + 1, (List.range' s (k - s)).map (2 ^ ·)⟩ := by
  intro n
  induction n with
  | zero => intro s k hsk hkn; omega
  | succ m ih =>
      intro s k hsk hkn hbefore hok
      rw [List.range'_succ]
      rcases Nat.eq_or_lt_of_le hsk with heq | hlt
      · subst heq
        cases m with
        | zero => simp [runAttempts, hok, Nat.sub_self]
        | succ m' =>
            rw [List.range'_succ]
            simp [runAttempts, hok, Nat.sub_self]
      · have herr : (resp s).isErr = true := hbefore s (Nat.le_refl s) hlt
        cases he : resp s with
        | ok cs' => rw [he] at herr; simp [AttemptResult.isErr] at herr
        | err e =>
            obtain ⟨m', rfl⟩ : ∃ m', m = m' + 1 := ⟨m - 1, by omega⟩
            rw [List.range'_succ]
            simp only [runAttempts, he]
            rw [← List.range'_succ]
            rw [ih (s + 1) k (by omega) (by omega)
              (fun j hj1 hj2 => hbefore j (by omega) hj2) hok]
            have hks : k - s = (k - (s + 1)) + 1 := by omega
            rw [hks, List.range'_succ]
            simp [Nat.sub_sub]

/-- The sleep schedule of the retry loop is always an initial segment
`2 ^ s, 2 ^ (s + 1), ..., 2 ^ (s + k - 1)` of the exponential schedule, with
at least one attempt not followed by a sleep. -/
theorem runAttempts_sleeps_shape (resp : Nat → AttemptResult) :
    ∀ (n s : Nat), ∃ k, k ≤ n - 1 ∧
      (runAttempts resp (List.range' s n)).sleeps = (List.range' s k).map (2 ^ ·) := by
  intro n
  induction n with
  | zero => intro s; exact ⟨0, by omega, by simp [runAttempts]⟩
  | succ m ih =>
      intro s
      rw [List.range'_succ]
      cases m with
      | zero =>
          cases he : resp s with
          | ok cs => exact ⟨0, by omega, by simp [runAttempts, he]⟩
          | err e => exact ⟨0, by omega, by simp [runAttempts, he]⟩
      | succ m' =>
          cases he : resp s with
          | ok cs =>
              refine ⟨0, by omega, ?_⟩
              rw [List.range'_succ]
              simp [runAttempts, he]
          | err e =>
              obtain ⟨k', hk', hsl⟩ := ih (s + 1)
              refine ⟨k' + 1, by omega, ?_⟩
              rw [List.range'_succ]
              simp only [runAttempts, he]
              rw [← List.range'_succ, hsl, List.range'_succ]
              simp

/-! ## Probe lemmas -/

theorem probeLoop_attempts_le (resp : Nat → Except Unit (Option Nat)) :
    ∀ (a i : Nat), (probeLoop resp a i).attempts ≤ a := by
  intro a
  induction a with
  | zero => intro i; simp [probeLoop]
  | succ n ih =>
      intro i
      cases h : resp i with
      | ok v => simp [probeLoop, h]
      | error e =>
          by_cases hn : n > 0
          · simp only [probeLoop, h, if_pos hn]
            have := ih (i + 1)
            omega
          · simp [probeLoop, h, hn]

theorem probe_sleeps_cases (resp : Nat → Except Unit (Option Nat)) :
    (getTotalRecords resp).sleeps = [] ∨ (getTotalRecords resp).sleeps = [2] ∨
      (getTotalRecords resp).sleeps = [2, 4] := by
  unfold getTotalRecords
  cases h0 : resp 0 with
  | ok v => left; simp [probeLoop, h0]
  | error e0 =>
      cases h1 : resp 1 with
      | ok v => right; left; simp [probeLoop, h0, h1]
      | error e1 =>
          cases h2 : resp 2 with
          | ok v => right; right; simp [probeLoop, h0, h1, h2]
          | error e2 => right; right; simp [probeLoop, h0, h1, h2]

/-! ## Exponential-schedule lemmas -/

theorem chain_le_map_pow_range' : ∀ (k s : Nat),
    List.Chain' (· ≤ ·) ((List.range' s k).map (2 ^ ·)) := by
  intro k
  induction k with
  | zero => intro s; simp
  | succ n ih =>
      intro s
      rw [List.range'_succ, List.map_cons]
      rw [List.chain'_cons']
      refine ⟨?_, ih (s + 1)⟩
      intro y hy
      cases n with
      | zero => simp at hy
      | succ m =>
          rw [List.range'_succ, List.map_cons] at hy
          simp only [List.head?_cons, Option.mem_def, Option.some.injEq] at hy
          subst hy
          exact Nat.pow_le_pow_right (by omega) (by omega)

theorem sum_map_pow_range' : ∀ (k s : Nat),
    ((List.range' s k).map (2 ^ ·)).sum + 2 ^ s = 2 ^ (s + k) := by
  intro k
  induction k with
  | zero => intro s; simp
  | succ n ih =>
      intro s
      rw [List.range'_succ, List.map_cons, List.sum_cons]
      have hih := ih (s + 1)
      have hpow : 2 ^ (s + 1) = 2 ^ s + 2 ^ s := by
        rw [Nat.pow_succ]; omega
      have harr : s + 1 + n = s + (n + 1) := by omega
      rw [harr] at hih
      omega

/-! ## Offset-plan lemmas -/

theorem pyRangeGo_length : ∀ (fuel start stop step : Nat), 0 < step →
    stop - start ≤ fuel →
    (pyRangeGo fuel start stop step).length = (stop - start + step - 1) / step := by
  intro fuel
  induction fuel with
  | zero =>
      intro start stop step hstep hle
      have h0 : stop - start = 0 := by omega
      rw [h0]
      simp [pyRangeGo, Nat.div_eq_of_lt (show step - 1 < step by omega)]
  | succ f ih =>
      intro start stop step hstep hle
      by_cases h : start < stop
      · have hrec := ih (start + step) stop step hstep (by omega)
        simp only [pyRangeGo, if_pos h, List.length_cons, hrec]
        have hd : 1 ≤ stop - start := by omega
        rcases Nat.lt_or_ge (stop - start) (step + 1) with hsmall | hbig
        · have h1 : stop - (start + step) = 0 := by omega
          rw [h1]
          rw [Nat.div_eq_of_lt (by omega : 0 + step - 1 < step)]
          have h2 : stop - start + step - 1 = (stop - start - 1) + step := by omega
          rw [h2, Nat.add_div_right _ hstep, Nat.div_eq_of_lt (by omega)]
        · have h2 : stop - start + step - 1 = (stop - start - 1) + step := by omega
          rw [h2, Nat.add_div_right _ hstep]
          have h3 : stop - (start + step) + step - 1 = (stop - start - 1 - step) + step := by
            omega
          rw [h3, Nat.add_div_right _ hstep]
          rw [Nat.div_eq_sub_div hstep (by omega : step ≤ stop - start - 1)]
      · have h0 : stop - start = 0 := by omega
        simp [pyRangeGo, h, h0, Nat.div_eq_of_lt (show step - 1 < step by omega)]

theorem pyRangeGo_head_eq : ∀ (fuel start stop step : Nat) (y : Nat),
    y ∈ (pyRangeGo fuel start stop step).head? → y = start := by
  intro fuel start stop step y hy
  cases fuel with
  | zero => simp [pyRangeGo] at hy
  | succ f =>
      by_cases h : start < stop
      · simp [pyRangeGo, h] at hy
        exact hy.symm
      · simp [pyRangeGo, h] at hy

theorem pyRangeGo_chain_step : ∀ (fuel start stop step : Nat),
    List.Chain' (fun a b => b = a + step) (pyRangeGo fuel start stop step) := by
  intro fuel
  induction fuel with
  | zero => intro start stop step; simp [pyRangeGo]
  | succ f ih =>
      intro start stop step
      by_cases h : start < stop
      · simp only [pyRangeGo, if_pos h]
        rw [List.chain'_cons']
        exact ⟨fun y hy => pyRangeGo_head_eq f (start + step) stop step y hy,
          ih (start + step) stop step⟩
      · simp [pyRangeGo, h]

/-! ## Normalizer lemmas -/

theorem flattenAll_length : ∀ (cs cs' : List Contact), flattenAll cs = some cs' →
    cs'.length = cs.length := by
  intro cs
  induction cs with
  | nil => intro cs' h; simp [flattenAll] at h; simp [← h]
  | cons c rest ih =>
      intro cs' h
      cases hf : flattenReason c with
      | none => simp [flattenAll, hf] at h
      | some c' =>
          cases hr : flattenAll rest with
          | none => simp [flattenAll, hf, hr] at h
          | some cs'' =>
              simp only [flattenAll, hf, hr, Option.some.injEq] at h
              subst h
              simp [ih cs'' hr]

theorem normalizePage_length (endpoint : String) (columns : Option (List String))
    (cs : List Contact) (rows : List (List String))
    (h : normalizePage endpoint columns cs = some rows) :
    rows.length = cs.length := by
  by_cases he : endpoint = BREVO_TRANSACTIONAL_ENDPOINT
  · rw [normalizePage, if_pos he] at h
    cases hf : flattenAll cs with
    | none => rw [hf] at h; cases h
    | some cs' =>
        rw [hf] at h
        simp only [Option.some.injEq] at h
        subst h
        simp [flattenAll_length cs cs' hf]
  · rw [normalizePage, if_neg he] at h
    cases columns with
    | some cols =>
        by_cases hall : cols.all (fun k => pageHasCol cs k)
        · rw [selectCols, if_pos hall] at h
          simp only [Option.some.injEq] at h
          subst h
          simp
        · rw [selectCols, if_neg hall] at h
          cases h
    | none =>
        rw [selectCols] at h
        simp only [Option.some.injEq] at h
        subst h
        simp

/-- Every row the transactional normalizer emits is the projection of some
contact onto the transactional column vector. -/
theorem normalizePage_transactional_rows (columns : Option (List String))
    (cs : List Contact) (rows : List (List String))
    (h : normalizePage BREVO_TRANSACTIONAL_ENDPOINT columns cs = some rows) :
    ∀ row ∈ rows, ∃ c, row = projectRow transactionalColumns c := by
  rw [normalizePage, if_pos rfl] at h
  cases hf : flattenAll cs with
  | none => rw [hf] at h; cases h
  | some cs' =>
      rw [hf] at h
      simp only [Option.some.injEq] at h
      subst h
      intro row hrow
      rw [List.mem_map] at hrow
      obtain ⟨c, hc, rfl⟩ := hrow
      exact ⟨c, rfl⟩

theorem marketing_ne_transactional :
    BREVO_MARKETING_ENDPOINT ≠ BREVO_TRANSACTIONAL_ENDPOINT := by
  decide

/-- Every row the marketing normalizer emits is the projection of some contact
onto the requested column vector. -/
theorem normalizePage_marketing_rows (cols : List String)
    (cs : List Contact) (rows : List (List String))
    (h : normalizePage BREVO_MARKETING_ENDPOINT (some cols) cs = some rows) :
    ∀ row ∈ rows, ∃ c, row = projectRow cols c := by
  rw [normalizePage, if_neg marketing_ne_transactional] at h
  by_cases hall : cols.all (fun k => pageHasCol cs k)
  · rw [selectCols, if_pos hall] at h
    simp only [Option.some.injEq] at h
    subst h
    intro row hrow
    rw [List.mem_map] at hrow
    obtain ⟨c, hc, rfl⟩ := hrow
    exact ⟨c, rfl⟩
  · rw [selectCols, if_neg hall] at h
    cases h

theorem projectRow_length (cols : List String) (c : Contact) :
    (projectRow cols c).length = cols.length := by
  simp [projectRow]

/-! ## Worker-pool lemmas -/

theorem workerRun_countP_header (endpoint : String) (columns : Option (List String))
    (resp : Nat → Nat → AttemptResult) (plan : List Nat) :
    (workerRun endpoint columns resp plan).countP FeedEvent.isHeaderWrite = 0 := by
  induction plan with
  | nil => simp [workerRun]
  | cons o rest ih =>
      by_cases hc : ((fetchContactsBatch (resp o)).result).isEmpty
      · simp [workerRun, hc, List.countP_cons, FeedEvent.isHeaderWrite, ih]
      · cases hn : normalizePage endpoint columns (fetchContactsBatch (resp o)).result with
        | some rows =>
            simp [workerRun, hc, hn, List.countP_cons, FeedEvent.isHeaderWrite, ih]
        | none =>
            simp [workerRun, hc, hn, List.countP_cons, FeedEvent.isHeaderWrite]

theorem workerRun_pageWrites_mem (endpoint : String) (columns : Option (List String))
    (resp : Nat → Nat → AttemptResult) (plan : List Nat) (o : Nat)
    (rows : List (List String))
    (h : (o, rows) ∈ pageWrites (workerRun endpoint columns resp plan)) :
    normalizePage endpoint columns (fetchContactsBatch (resp o)).result = some rows := by
  induction plan with
  | nil => simp [workerRun, pageWrites] at h
  | cons o' rest ih =>
      by_cases hc : ((fetchContactsBatch (resp o')).result).isEmpty
      · rw [workerRun, if_pos hc] at h
        simp only [pageWrites, List.filterMap_cons] at h
        exact ih h
      · cases hn : normalizePage endpoint columns (fetchContactsBatch (resp o')).result with
        | some rows' =>
            rw [workerRun, if_neg hc, hn] at h
            simp only [pageWrites, List.filterMap_cons, List.mem_cons,
              Prod.mk.injEq] at h
            rcases h with ⟨rfl, rfl⟩ | h
            · exact hn
            · exact ih (by simpa [pageWrites] using h)
        | none =>
            rw [workerRun, if_neg hc, hn] at h
            simp [pageWrites] at h

/-- With no worker crash, every offset of the plan is fetched, in dispatch
order, and exactly the non-empty pages are written, each with its normalized
rows. -/
theorem workerRun_no_crash (endpoint : String) (columns : Option (List String))
    (resp : Nat → Nat → AttemptResult) : ∀ (plan : List Nat),
    (∀ o ∈ plan, ((fetchContactsBatch (resp o)).result).isEmpty = true ∨
      (normalizePage endpoint columns (fetchContactsBatch (resp o)).result).isSome = true) →
    fetchedOffsets (workerRun endpoint columns resp plan) = plan ∧
    pageWrites (workerRun endpoint columns resp plan) = plan.filterMap (fun o =>
      if ((fetchContactsBatch (resp o)).result).isEmpty then none
      else (normalizePage endpoint columns (fetchContactsBatch (resp o)).result).map
        (fun rows => (o, rows))) := by
  intro plan
  induction plan with
  | nil => intro _; simp [workerRun, fetchedOffsets, pageWrites]
  | cons o rest ih =>
      intro h
      have ho := h o (List.mem_cons_self o rest)
      have hrest := ih (fun x hx => h x (List.mem_cons_of_mem o hx))
      by_cases hc : ((fetchContactsBatch (resp o)).result).isEmpty
      · rw [workerRun, if_pos hc]
        simp only [fetchedOffsets, pageWrites, List.filterMap_cons, if_pos hc]
        exact ⟨by simp [fetchedOffsets] at hrest ⊢; exact hrest.1,
          by simp [pageWrites] at hrest ⊢; exact hrest.2⟩
      · rcases ho with ho | ho
        · exact absurd ho hc
        · cases hn : normalizePage endpoint columns (fetchContactsBatch (resp o)).result with
          | none => rw [hn] at ho; simp at ho
          | some rows =>
              rw [workerRun, if_neg hc, hn]
              simp only [fetchedOffsets, pageWrites, List.filterMap_cons, if_neg hc, hn]
              refine ⟨?_, ?_⟩
              · simp only [fetchedOffsets] at hrest
                simp [hrest.1]
              · simp only [pageWrites] at hrest
                simp [hrest.2]

/-! ## Feed-trace lemmas -/

theorem fileLines_feedTrace (file headerLine : String) (evs : List FeedEvent) :
    fileLines (feedTrace file headerLine evs) = headerLine :: fileLines evs := by
  rw [feedTrace]
  split
  · simp [fileLines]
  · simp [fileLines]

theorem countP_header_feedTrace (file headerLine : String) (evs : List FeedEvent) :
    (feedTrace file headerLine evs).countP FeedEvent.isHeaderWrite =
      1 + evs.countP FeedEvent.isHeaderWrite := by
  rw [feedTrace]
  split
  · simp [List.countP_cons, FeedEvent.isHeaderWrite]
    omega
  · simp [List.countP_append, List.countP_cons, FeedEvent.isHeaderWrite]
    omega

theorem pageWrites_feedTrace (file headerLine : String) (evs : List FeedEvent) :
    pageWrites (feedTrace file headerLine evs) = pageWrites evs := by
  rw [feedTrace]
  split
  · simp [pageWrites]
  · simp [pageWrites, List.filterMap_append]

/-! ## Concrete fixtures for witnesses and counterexamples -/

def contactX : Contact := [("email", JVal.str "x@y")]

/-- Every page-fetch attempt fails with HTTP 503. -/
def respAllFail : Nat → AttemptResult := fun _ => .err (some 503)

/-- The first page-fetch attempt fails with HTTP 400, the second succeeds. -/
def resp400 : Nat → AttemptResult :=
  fun k => if k = 0 then .err (some 400) else .ok [contactX]

/-- The first page-fetch attempt fails with HTTP 404, the second succeeds. -/
def resp404 : Nat → AttemptResult :=
  fun k => if k = 0 then .err (some 404) else .ok [contactX]

/-- The page at offset 0 is empty; every other page holds one valid contact. -/
def respEmptyFirst : Nat → Nat → AttemptResult :=
  fun o _ => if o = 0 then .ok [] else .ok [contactX]

/-- The count probe fails on every attempt. -/
def probeFail : Nat → Except Unit (Option Nat) := fun _ => .error ()

/-- The count probe succeeds with `count = 200`. -/
def probeOk200 : Nat → Except Unit (Option Nat) := fun _ => .ok (some 200)

/-- The count probe succeeds with `count = 0`. -/
def probeOk0 : Nat → Except Unit (Option Nat) := fun _ => .ok (some 0)

/-- Scenario S7: a transactional contact with a nested reason object. -/
def contactS7 : Contact :=
  [("email", JVal.str "a@b"),
   ("reason", JVal.obj [("message", JVal.str "hard bounce"), ("code", JVal.num 5)])]

def reasonS7 : List (String × JVal) :=
  [("message", JVal.str "hard bounce"), ("code", JVal.num 5)]

/-- A page holding one valid contact, one null-email contact and one contact
without an email key. -/
def pageMixed : List Contact :=
  [[("email", JVal.str "a@b"), ("blockedAt", JVal.str "2024-01-01")],
   [("email", JVal.null)],
   [("senderEmail", JVal.str "s@t")]]

/-- The first page-fetch attempt succeeds with the mixed page. -/
def respMixed : Nat → AttemptResult :=
  fun j => if j = 0 then .ok pageMixed else .ok []

/-! ## Claim C2 -/

/-- C2 (counterexample): the claim says the maximum attempt count defaults to 3
for both the count probe and the page fetch.  The page fetch uses
`max_attempts = 10`: with every attempt failing it performs 10 HTTP attempts,
which exceeds 3.  The probe does use 3. -/
theorem C2_counterexample :
    (fetchContactsBatch respAllFail).attempts = 10 ∧
    ¬((fetchContactsBatch respAllFail).attempts ≤ 3) ∧
    (getTotalRecords probeFail).attempts = 3 :=
  ⟨rfl, by decide, rfl⟩

/-- C2 (amended): for every behaviour of the remote API, the count probe
performs at most 3 HTTP attempts and the page fetch at most
`max_attempts = 10` HTTP attempts. -/
theorem C2_attempt_bounds (presp : Nat → Except Unit (Option Nat))
    (resp : Nat → AttemptResult) :
    (getTotalRecords presp).attempts ≤ 3 ∧
    (fetchContactsBatch resp).attempts ≤ max_attempts := by
  constructor
  · exact probeLoop_attempts_le presp 3 0
  · have h := runAttempts_attempts_le resp (List.range max_attempts)
    simpa [fetchContactsBatch] using h

/-! ## Claim C3 -/

/-- C3 (counterexample): the claim says a 4xx response other than 429 is
Terminal and surfaced without further retries, and that a 404 is treated as
exhaustion.  In the code a first-attempt HTTP 400 (and equally a 404) is
retried: a second attempt happens and its page is returned, so the 400 was
neither surfaced nor the 404 treated as exhaustion. -/
theorem C3_counterexample :
    (fetchContactsBatch resp400).attempts = 2 ∧
    (fetchContactsBatch resp400).result.length = 1 ∧
    (fetchContactsBatch resp404).attempts = 2 ∧
    (fetchContactsBatch resp404).result.length = 1 :=
  ⟨rfl, rfl, rfl, rfl⟩

/-- C3 (amended): the page fetch performs no failure classification: every
failure — network error or any HTTP status, 4xx and 404 included — is retried
uniformly, and after all `max_attempts` attempts fail the fetch returns an
empty page to the caller instead of surfacing an error. -/
theorem C3_uniform_retry (resp : Nat → AttemptResult) :
    ((∀ k, k < max_attempts → (resp k).isErr = true) →
      (fetchContactsBatch resp).result = [] ∧
      (fetchContactsBatch resp).attempts = max_attempts) ∧
    (∀ e, resp 0 = .err e → 2 ≤ (fetchContactsBatch resp).attempts) := by
  constructor
  · intro h
    have hall := runAttempts_all_err resp (List.range max_attempts)
      (fun a ha => h a (List.mem_range.mp ha))
    simpa [fetchContactsBatch] using hall
  · intro e he
    have hr : List.range max_attempts = 0 :: 1 :: List.range' 2 8 := by decide
    rw [fetchContactsBatch, hr, runAttempts_attempts_err_cons resp 0 1 (List.range' 2 8) e he]
    have hpos := runAttempts_attempts_pos resp 1 (List.range' 2 8)
    omega

/-- C3 (witness): with every attempt failing, the fetch returns an empty page
after exactly 10 attempts; with a 400 on the first attempt, a retry occurs. -/
theorem C3_witness :
    ((fetchContactsBatch respAllFail).result = [] ∧
     (fetchContactsBatch respAllFail).attempts = max_attempts) ∧
    2 ≤ (fetchContactsBatch resp400).attempts :=
  ⟨(C3_uniform_retry respAllFail).1 (by decide),
   (C3_uniform_retry resp400).2 (some 400) rfl⟩

/-! ## Claim C9 -/

/-- C9: for every behaviour of the remote API, the sleep durations between
successive retry attempts are non-decreasing, both for the page fetch and for
the count probe, and the total wait of one call is at most `D * (2 ^ A - 1)`
with base delay `D = 1` second and `A` the call's maximum attempt count
(10 for the page fetch, 3 for the probe). -/
theorem C9_backoff_monotone (presp : Nat → Except Unit (Option Nat))
    (resp : Nat → AttemptResult) :
    List.Chain' (· ≤ ·) (fetchContactsBatch resp).sleeps ∧
    (fetchContactsBatch resp).sleeps.sum ≤ 2 ^ max_attempts - 1 ∧
    List.Chain' (· ≤ ·) (getTotalRecords presp).sleeps ∧
    (getTotalRecords presp).sleeps.sum ≤ 2 ^ 3 - 1 := by
  obtain ⟨k, hk, hsl⟩ := runAttempts_sleeps_shape resp max_attempts 0
  have hfetch : (fetchContactsBatch resp).sleeps = (List.range' 0 k).map (2 ^ ·) := by
    rw [fetchContactsBatch, List.range_eq_range']
    exact hsl
  refine ⟨?_, ?_, ?_, ?_⟩
  · rw [hfetch]
    exact chain_le_map_pow_range' k 0
  · rw [hfetch]
    have hsum := sum_map_pow_range' k 0
    have hpow : (2:Nat) ^ (0 + k) ≤ 2 ^ max_attempts :=
      Nat.pow_le_pow_right (by omega) (by simp [max_attempts] at hk ⊢; omega)
    omega
  · rcases probe_sleeps_cases presp with h | h | h <;> rw [h] <;>
      simp [List.chain'_cons', List.chain'_singleton]
  · rcases probe_sleeps_cases presp with h | h | h <;> rw [h] <;> decide

/-! ## Claim C10 -/

/-- C10: whatever the host-supplied configuration, the marketing feed always
uses `segmentId = 8` and page size 1000, the transactional feed always uses
page size 100 and sends no `segmentId`, and the per-request query parameters
carry exactly those values; none of them can be changed through the
configuration. -/
theorem C10_hardcoded_feed_setup (cfg cfg' : ConfigParams) (offset : Nat) :
    (marketingFeedSetup cfg).batchSize = 1000 ∧
    (marketingFeedSetup cfg).segmentId = some 8 ∧
    (transactionalFeedSetup cfg).batchSize = 100 ∧
    (transactionalFeedSetup cfg).segmentId = none ∧
    marketingFeedSetup cfg = marketingFeedSetup cfg' ∧
    transactionalFeedSetup cfg = transactionalFeedSetup cfg' ∧
    (buildRequestParams (marketingFeedSetup cfg).batchSize offset
      (marketingFeedSetup cfg).segmentId).segmentId = some 8 ∧
    (buildRequestParams (marketingFeedSetup cfg).batchSize offset
      (marketingFeedSetup cfg).segmentId).limit = 1000 ∧
    (buildRequestParams (transactionalFeedSetup cfg).batchSize offset
      (transactionalFeedSetup cfg).segmentId).segmentId = none ∧
    (buildRequestParams (transactionalFeedSetup cfg).batchSize offset
      (transactionalFeedSetup cfg).segmentId).limit = 100 :=
  ⟨rfl, rfl, rfl, rfl, rfl, rfl, rfl, rfl, rfl, rfl⟩

/-! ## Claim C1 -/

/-- C1 (counterexample): the claim says an empty page fires a termination
signal after which no further offset enters flight.  With the page at offset 0
empty and the plan `[0, 100]`, offset 100 is nevertheless fetched after the
empty observation, and its page is still written: the worker loop has no
termination signal. -/
theorem C1_counterexample :
    (fetchContactsBatch (respEmptyFirst 0)).result = [] ∧
    fetchedOffsets (workerRun BREVO_TRANSACTIONAL_ENDPOINT none respEmptyFirst
      (pyRange 0 200 100)) = [0, 100] ∧
    (pageWrites (workerRun BREVO_TRANSACTIONAL_ENDPOINT none respEmptyFirst
      (pyRange 0 200 100))).length = 1 :=
  ⟨rfl, rfl, rfl⟩

/-- C1 (amended): observing an empty page does not stop the pool: provided no
worker crashes, every offset of the plan is dispatched and fetched, in order,
and exactly the non-empty pages are written to the sink with their normalized
rows — the in-flight and later pages are all still sinked. -/
theorem C1_no_early_termination (endpoint : String) (columns : Option (List String))
    (resp : Nat → Nat → AttemptResult) (plan : List Nat)
    (h : ∀ o ∈ plan, ((fetchContactsBatch (resp o)).result).isEmpty = true ∨
      (normalizePage endpoint columns (fetchContactsBatch (resp o)).result).isSome = true) :
    fetchedOffsets (workerRun endpoint columns resp plan) = plan ∧
    pageWrites (workerRun endpoint columns resp plan) = plan.filterMap (fun o =>
      if ((fetchContactsBatch (resp o)).result).isEmpty then none
      else (normalizePage endpoint columns (fetchContactsBatch (resp o)).result).map
        (fun rows => (o, rows))) :=
  workerRun_no_crash endpoint columns resp plan h

/-- C1 (witness): the amended statement at the concrete run of the
counterexample: both offsets of the plan are fetched although the first page
is empty. -/
theorem C1_witness :
    fetchedOffsets (workerRun BREVO_TRANSACTIONAL_ENDPOINT none respEmptyFirst
      (pyRange 0 200 100)) = pyRange 0 200 100 :=
  (C1_no_early_termination BREVO_TRANSACTIONAL_ENDPOINT none respEmptyFirst
    (pyRange 0 200 100) (by decide)).1

/-! ## Claim C4 -/

/-- C4: for every total `N` and page size `B > 0`, the offset plan
`range(0, N, B)` has exactly `⌈N / B⌉ = (N + B - 1) / B` elements, starts at 0,
and increases in steps of exactly `B` (hence strictly); for `N = 0` the plan is
empty and a probe returning 0 yields a successful run whose output file holds
only the header line. -/
theorem C4_offset_plan (N B : Nat) (hB : 0 < B) :
    (pyRange 0 N B).length = (N + B - 1) / B ∧
    (pyRange 0 N B).head? = (if 0 < N then some 0 else none) ∧
    List.Chain' (fun a b => b = a + B) (pyRange 0 N B) ∧
    List.Chain' (· < ·) (pyRange 0 N B) ∧
    pyRange 0 0 B = [] ∧
    (∀ probeResp pageResp, (getTotalRecords probeResp).result = .ok 0 →
      fileLines (runTransactionalFeed probeResp pageResp).1 = [transactionalHeaderLine] ∧
      (runTransactionalFeed probeResp pageResp).2 = 0) := by
  refine ⟨?_, ?_, ?_, ?_, rfl, ?_⟩
  · have h := pyRangeGo_length N 0 N B hB (by omega)
    simpa [pyRange] using h
  · cases N with
    | zero => simp [pyRange, pyRangeGo]
    | succ n => simp [pyRange, pyRangeGo]
  · have h := pyRangeGo_chain_step (N - 0) 0 N B
    simpa [pyRange] using h
  · have h := pyRangeGo_chain_step (N - 0) 0 N B
    refine List.Chain'.imp ?_ (by simpa [pyRange] using h)
    intro a b hab
    omega
  · intro probeResp pageResp h
    constructor <;>
      simp [runTransactionalFeed, h, pyRange, pyRangeGo, workerRun, feedTrace,
        feedExit, fileLines]

/-- C4 (witness): the plan for `N = 250, B = 100` has `⌈250 / 100⌉ = 3`
offsets in steps of 100, and a probe returning 0 produces a header-only file. -/
theorem C4_witness :
    (pyRange 0 250 100).length = (250 + 100 - 1) / 100 ∧
    List.Chain' (fun a b => b = a + 100) (pyRange 0 250 100) ∧
    fileLines (runTransactionalFeed probeOk0 respEmptyFirst).1 =
      [transactionalHeaderLine] :=
  ⟨(C4_offset_plan 250 100 (by decide)).1,
   (C4_offset_plan 250 100 (by decide)).2.2.1,
   ((C4_offset_plan 250 100 (by decide)).2.2.2.2.2 probeOk0 respEmptyFirst rfl).1⟩

/-! ## Claim C5 -/

/-- C5: whenever the page fetch at some offset succeeds at attempt `k` with
raw page `cs`, its result is exactly the email-bearing subset of `cs`: one
entry per contact whose `email` is present and non-null, none for the others
(dropped silently), and the normalizer then emits exactly one sink row per
kept contact. -/
theorem C5_email_filter (resp : Nat → AttemptResult) (k : Nat) (cs : List Contact)
    (hbefore : ∀ j, j < k → (resp j).isErr = true)
    (hok : resp k = .ok cs) (hk : k < max_attempts) :
    (fetchContactsBatch resp).result = cs.filter emailPresent ∧
    (∀ c ∈ cs, emailPresent c = false → c ∉ (fetchContactsBatch resp).result) ∧
    (∀ endpoint columns rows,
      normalizePage endpoint columns (fetchContactsBatch resp).result = some rows →
      rows.length = (cs.filter emailPresent).length) := by
  have h1 : (fetchContactsBatch resp).result = cs.filter emailPresent := by
    have h := runAttempts_first_ok resp cs max_attempts 0 k (by omega) (by omega)
      (fun j _ hj2 => hbefore j hj2) hok
    rw [fetchContactsBatch, List.range_eq_range', h]
  refine ⟨h1, ?_, ?_⟩
  · intro c _ hfalse hmem
    rw [h1, List.mem_filter] at hmem
    rw [hmem.2] at hfalse
    cases hfalse
  · intro endpoint columns rows hrows
    rw [h1] at hrows
    exact normalizePage_length endpoint columns _ rows hrows

/-- C5 (witness): a first-attempt page with one valid contact, one null email
and one missing email yields exactly the valid contact. -/
theorem C5_witness :
    (fetchContactsBatch respMixed).result = pageMixed.filter emailPresent :=
  (C5_email_filter respMixed 0 pageMixed
    (fun j hj => absurd hj (Nat.not_lt_zero j)) rfl (by decide)).1

/-! ## Claim C6 -/

/-- C6: for every transactional contact holding a nested `reason` object `r`,
the flattened contact has `reason.message` lifted to `reason_message` and
`reason.code` lifted to `reason_code`, the `reason` key deleted, and its sink
row is the projection onto {email, reason_message, reason_code, blockedAt,
senderEmail}; a missing field (lookup `none` or Python `None`) emits an empty
cell, and `reason` is not among the projected columns. -/
theorem C6_reason_flattening (c : Contact) (r : List (String × JVal))
    (h : jlookup c "reason" = some (JVal.obj r)) :
    ∃ c', flattenReason c = some c' ∧
      jlookup c' "reason_message" = some (pyGet r "message") ∧
      jlookup c' "reason_code" = some (pyGet r "code") ∧
      jlookup c' "reason" = none ∧
      projectRow transactionalColumns c' =
        [cellStr (jlookup c "email"), cellStr (some (pyGet r "message")),
         cellStr (some (pyGet r "code")), cellStr (jlookup c "blockedAt"),
         cellStr (jlookup c "senderEmail")] ∧
      cellStr none = "" ∧ cellStr (some JVal.null) = "" ∧
      "reason" ∉ transactionalColumns := by
  refine ⟨pyDel (pySet (pySet c "reason_message" (pyGet r "message"))
      "reason_code" (pyGet r "code")) "reason", ?_, ?_, ?_, ?_, ?_, rfl, rfl, by decide⟩
  · rw [flattenReason, h]
  · rw [jlookup_pyDel_of_ne _ _ _ (by decide),
        jlookup_pySet_of_ne _ _ _ _ (by decide),
        jlookup_pySet_self]
  · rw [jlookup_pyDel_of_ne _ _ _ (by decide), jlookup_pySet_self]
  · exact jlookup_pyDel_self _ _
  · simp only [projectRow, transactionalColumns, List.map_cons, List.map_nil]
    rw [jlookup_pyDel_of_ne _ _ _ (by decide),
        jlookup_pySet_of_ne _ _ _ _ (by decide),
        jlookup_pySet_of_ne _ _ _ _ (by decide)]
    rw [jlookup_pyDel_of_ne _ _ _ (by decide),
        jlookup_pySet_of_ne _ _ _ _ (by decide),
        jlookup_pySet_self]
    rw [jlookup_pyDel_of_ne _ _ _ (by decide), jlookup_pySet_self]
    rw [jlookup_pyDel_of_ne _ _ _ (by decide),
        jlookup_pySet_of_ne _ _ _ _ (by decide),
        jlookup_pySet_of_ne _ _ _ _ (by decide)]
    rw [jlookup_pyDel_of_ne _ _ _ (by decide),
        jlookup_pySet_of_ne _ _ _ _ (by decide),
        jlookup_pySet_of_ne _ _ _ _ (by decide)]

/-- C6 (witness): scenario S7, `{email: a@b, reason: {message: hard bounce,
code: 5}}`, instantiating the claim; its projected row evaluates to
`a@b,hard bounce,5,,`. -/
theorem C6_witness :
    ∃ c', flattenReason contactS7 = some c' ∧
      jlookup c' "reason_message" = some (pyGet reasonS7 "message") ∧
      jlookup c' "reason_code" = some (pyGet reasonS7 "code") ∧
      jlookup c' "reason" = none ∧
      projectRow transactionalColumns c' =
        [cellStr (jlookup contactS7 "email"), cellStr (some (pyGet reasonS7 "message")),
         cellStr (some (pyGet reasonS7 "code")), cellStr (jlookup contactS7 "blockedAt"),
         cellStr (jlookup contactS7 "senderEmail")] ∧
      cellStr none = "" ∧ cellStr (some JVal.null) = "" ∧
      "reason" ∉ transactionalColumns :=
  C6_reason_flattening contactS7 reasonS7 rfl

/-! ## Claim C7 -/

/-- C7: after a successful probe, each feed's sink file starts with the
declared comma-joined column vector, exactly one header write ever happens
regardless of the number of pages written, and every written row is the
projection of some contact onto the declared column vector (hence has its
length and order). -/
theorem C7_single_header (probeResp : Nat → Except Unit (Option Nat))
    (pageResp : Nat → Nat → AttemptResult) (total : Nat)
    (h : (getTotalRecords probeResp).result = .ok total) :
    ((fileLines (runTransactionalFeed probeResp pageResp).1).head? =
        some transactionalHeaderLine ∧
      (runTransactionalFeed probeResp pageResp).1.countP FeedEvent.isHeaderWrite = 1 ∧
      (∀ o rows, (o, rows) ∈ pageWrites (runTransactionalFeed probeResp pageResp).1 →
        ∀ row ∈ rows, row.length = transactionalColumns.length ∧
          ∃ c, row = projectRow transactionalColumns c)) ∧
    ((fileLines (runMarketingFeed probeResp pageResp).1).head? =
        some marketingHeaderLine ∧
      (runMarketingFeed probeResp pageResp).1.countP FeedEvent.isHeaderWrite = 1 ∧
      (∀ o rows, (o, rows) ∈ pageWrites (runMarketingFeed probeResp pageResp).1 →
        ∀ row ∈ rows, row.length = marketingColumns.length ∧
          ∃ c, row = projectRow marketingColumns c)) := by
  have ht : (runTransactionalFeed probeResp pageResp).1 =
      feedTrace "transactional_contacts.csv" transactionalHeaderLine
        (workerRun BREVO_TRANSACTIONAL_ENDPOINT none pageResp (pyRange 0 total 100)) := by
    simp [runTransactionalFeed, h]
  have hm : (runMarketingFeed probeResp pageResp).1 =
      feedTrace "marketing_contacts.csv" marketingHeaderLine
        (workerRun BREVO_MARKETING_ENDPOINT (some marketingColumns) pageResp
          (pyRange 0 total 1000)) := by
    simp [runMarketingFeed, h]
  constructor
  · refine ⟨?_, ?_, ?_⟩
    · rw [ht, fileLines_feedTrace]
      rfl
    · rw [ht, countP_header_feedTrace, workerRun_countP_header]
    · intro o rows hmem row hrow
      rw [ht, pageWrites_feedTrace] at hmem
      have hn := workerRun_pageWrites_mem _ _ _ _ _ _ hmem
      obtain ⟨c, rfl⟩ := normalizePage_transactional_rows _ _ _ hn row hrow
      exact ⟨projectRow_length _ _, c, rfl⟩
  · refine ⟨?_, ?_, ?_⟩
    · rw [hm, fileLines_feedTrace]
      rfl
    · rw [hm, countP_header_feedTrace, workerRun_countP_header]
    · intro o rows hmem row hrow
      rw [hm, pageWrites_feedTrace] at hmem
      have hn := workerRun_pageWrites_mem _ _ _ _ _ _ hmem
      obtain ⟨c, rfl⟩ := normalizePage_marketing_rows _ _ _ hn row hrow
      exact ⟨projectRow_length _ _, c, rfl⟩

/-- C7 (witness): a concrete run with `count = 200`: the transactional file
starts with its header line and the marketing trace holds exactly one header
write. -/
theorem C7_witness :
    (fileLines (runTransactionalFeed probeOk200 respEmptyFirst).1).head? =
      some transactionalHeaderLine ∧
    (runMarketingFeed probeOk200 respEmptyFirst).1.countP FeedEvent.isHeaderWrite = 1 :=
  ⟨(C7_single_header probeOk200 respEmptyFirst 200 rfl).1.1,
   (C7_single_header probeOk200 respEmptyFirst 200 rfl).2.2.1⟩

/-! ## Claim C8 -/

/-- C8: when the count probe exhausts its retries (a `UserException`), the run
exits with code 1, no sink file is created, nothing is written and the run
state is not updated — for either feed. -/
theorem C8_probe_failure_aborts (probeResp : Nat → Except Unit (Option Nat))
    (pageResp : Nat → Nat → AttemptResult)
    (h : (getTotalRecords probeResp).result = .error ()) :
    ((runTransactionalFeed probeResp pageResp).2 = 1 ∧
      (runTransactionalFeed probeResp pageResp).1 = [] ∧
      (∀ f, FeedEvent.sinkCreate f ∉ (runTransactionalFeed probeResp pageResp).1) ∧
      FeedEvent.stateWrite ∉ (runTransactionalFeed probeResp pageResp).1 ∧
      fileLines (runTransactionalFeed probeResp pageResp).1 = []) ∧
    ((runMarketingFeed probeResp pageResp).2 = 1 ∧
      (runMarketingFeed probeResp pageResp).1 = [] ∧
      (∀ f, FeedEvent.sinkCreate f ∉ (runMarketingFeed probeResp pageResp).1) ∧
      FeedEvent.stateWrite ∉ (runMarketingFeed probeResp pageResp).1 ∧
      fileLines (runMarketingFeed probeResp pageResp).1 = []) := by
  constructor
  · refine ⟨?_, ?_, ?_, ?_, ?_⟩ <;> simp [runTransactionalFeed, h, fileLines]
  · refine ⟨?_, ?_, ?_, ?_, ?_⟩ <;> simp [runMarketingFeed, h, fileLines]

/-- C8 (witness): a probe failing on all three attempts (e.g. 401 throughout)
gives exit code 1 on both feeds with empty traces. -/
theorem C8_witness :
    (runTransactionalFeed probeFail respEmptyFirst).2 = 1 ∧
    (runMarketingFeed probeFail respEmptyFirst).2 = 1 :=
  ⟨(C8_probe_failure_aborts probeFail respEmptyFirst rfl).1.1,
   (C8_probe_failure_aborts probeFail respEmptyFirst rfl).2.1⟩

end Brevo
